import Mathlib

/-!
# Verification of the yarer expression evaluator

Shallow embedding of the core pipeline of the yarer repository
(`src/token.rs`, `src/parser.rs`, `src/rpn_resolver.rs`, `src/session.rs`):
lexical splitting, unary-operator normalization, shunting-yard conversion to
postfix, and postfix evaluation over the two-variant numeric type.

Modelling conventions:
* `BigInt` is modelled as `ℤ`, `BigRational` as `ℚ` (both arbitrary precision).
* Rust panics (`unwrap`/`expect` failures, rational division by zero) are
  modelled as an explicit `panic` outcome, distinct from recoverable
  `anyhow` errors.
* Floating-point computations (`f64::powf` in the decimal branch of `BitXor`,
  the `f64` math functions applied by `Function` tokens, the lossy
  `From<Number> for f64` conversion, and `f64`-literal parsing) are kept
  abstract as parameters collected in a `FloatModel`; every theorem holds for
  every instantiation, or states the needed IEEE-754 fact (for instance
  `powf(+0, y) = +inf` for `y < 0`, hence `BigRational::from_float` fails)
  as an explicit hypothesis.
* The `VecDeque` operand stack is modelled as a list whose head is the BACK
  (top) of the deque, so `push_back`/`pop_back` are `cons`/head-tail and
  `pop_front` is `getLast?`.
-/

namespace Yarer

/-- `Number` from `src/token.rs`: either an integer (`BigInt`, modelled `ℤ`)
or a rational (`BigRational`, modelled `ℚ`). -/
inductive Number where
  | NaturalNumber (z : ℤ)
  | DecimalNumber (q : ℚ)
  deriving DecidableEq, Repr

/-- `Operator` from `src/token.rs`. -/
inductive Operator where
  | Add | Sub | Mul | Div | Pow | Une | Fac | Eql
  deriving DecidableEq, Repr

/-- `Associate` from `src/token.rs`. -/
inductive Associate where
  | LeftAssociative | RightAssociative
  deriving DecidableEq, Repr

/-- `Bracket` from `src/token.rs`. -/
inductive Bracket where
  | Open | Close
  deriving DecidableEq, Repr

/-- `MathFunction` from `src/token.rs`. -/
inductive MathFunction where
  | Sin | Cos | Tan | ASin | ACos | ATan | Ln | Log | Abs | Sqrt
  | Max | Min | Floor | Ceil | Round | Exp | Pdf | Cdf | None
  deriving DecidableEq, Repr

/-- `Token` from `src/token.rs`.  Variable names are owned strings here
(the Rust code borrows slices of the source text). -/
inductive Token where
  | Operand (n : Number)
  | Operator (o : Operator)
  | Bracket (b : Bracket)
  | Function (f : MathFunction)
  | Comma
  | Variable (s : String)
  | SemiColon
  deriving DecidableEq, Repr

/-- The derived `PartialEq` of `Number` (`#[derive(PartialEq)]` in
`src/token.rs` line 14): equality is per-variant / representational, a
`NaturalNumber` never equals a `DecimalNumber`. -/
def Number.eqb : Number → Number → Bool
  | .NaturalNumber a, .NaturalNumber b => a == b
  | .DecimalNumber p, .DecimalNumber q => p == q
  | _, _ => false

/-- `Ord::cmp` on `BigInt` (total order on `ℤ`). -/
def cmpInt (a b : ℤ) : Ordering :=
  if a < b then .lt else if a = b then .eq else .gt

/-- `Ord::cmp` on `BigRational` (total order on `ℚ`). -/
def cmpRat (a b : ℚ) : Ordering :=
  if a < b then .lt else if a = b then .eq else .gt

/-- The manual `PartialOrd for Number` (`src/token.rs` lines 362-375):
cross-variant comparison converts the integer side to a rational. -/
def Number.partial_cmp : Number → Number → Option Ordering
  | .NaturalNumber v1, .NaturalNumber v2 => some (cmpInt v1 v2)
  | .NaturalNumber v1, .DecimalNumber v2 => some (cmpRat (v1 : ℚ) v2)
  | .DecimalNumber v1, .NaturalNumber v2 => some (cmpRat v1 (v2 : ℚ))
  | .DecimalNumber v1, .DecimalNumber v2 => some (cmpRat v1 v2)

/-- `PartialOrd::lt`'s default: `matches!(partial_cmp(..), Some(Less))`. -/
def Number.ltb (a b : Number) : Bool :=
  match Number.partial_cmp a b with
  | some .lt => true
  | _ => false

/-- The numeric value denoted by a `Number` (specification-side denotation,
used only in theorem statements). -/
def Number.val : Number → ℚ
  | .NaturalNumber z => (z : ℚ)
  | .DecimalNumber q => q

/-- `apply_functional_token_operation` from `src/token.rs` lines 293-308:
dispatch on the two variants, promoting `NaturalNumber` to rational in the
mixed cases.  The closures return `Option` so a Rust panic inside a closure
(`none`) can propagate. -/
def apply_functional_token_operation (ln rn : Number)
    (nf : ℤ → ℤ → Option ℤ) (df : ℚ → ℚ → Option ℚ) : Option Number :=
  match ln, rn with
  | .NaturalNumber v1, .NaturalNumber v2 => (nf v1 v2).map .NaturalNumber
  | .NaturalNumber v1, .DecimalNumber v2 => (df (v1 : ℚ) v2).map .DecimalNumber
  | .DecimalNumber v1, .NaturalNumber v2 => (df v1 (v2 : ℚ)).map .DecimalNumber
  | .DecimalNumber v1, .DecimalNumber v2 => (df v1 v2).map .DecimalNumber

/-- `impl Add for Number`. -/
def Number.add (a b : Number) : Option Number :=
  apply_functional_token_operation a b
    (fun x y => some (x + y)) (fun x y => some (x + y))

/-- `impl Sub for Number`. -/
def Number.sub (a b : Number) : Option Number :=
  apply_functional_token_operation a b
    (fun x y => some (x - y)) (fun x y => some (x - y))

/-- `impl Mul for Number`. -/
def Number.mul (a b : Number) : Option Number :=
  apply_functional_token_operation a b
    (fun x y => some (x * y)) (fun x y => some (x * y))

/-- `impl Div for Number`: `BigInt` division truncates toward zero and panics
on a zero divisor (`none`); `BigRational` division also panics on a zero
divisor, otherwise it is exact. -/
def Number.div (a b : Number) : Option Number :=
  apply_functional_token_operation a b
    (fun x y => if y = 0 then none else some (Int.tdiv x y))
    (fun x y => if y = 0 then none else some (x / y))

/-- The integer closure of `impl BitXor for Number` (`src/token.rs` lines
342-358): `BigInt::pow(&a, b.try_into().unwrap())` — the exponent is
narrowed to `u32`, so any exponent outside `[0, 2^32)` makes the `unwrap`
panic (`none`). -/
def natPowClosure (a b : ℤ) : Option ℤ :=
  if 0 ≤ b ∧ b < 4294967296 then some (a ^ b.toNat) else none

/-- `impl BitXor for Number`.  The decimal closure converts both sides to
`f64` and applies `f64::powf`, then `BigRational::from_float`, which fails
(panics, `none`) on an infinite or NaN result; this floating computation is
the abstract parameter `fpow`. -/
def Number.bitxor (fpow : ℚ → ℚ → Option ℚ) (a b : Number) : Option Number :=
  apply_functional_token_operation a b natPowClosure fpow

/-- The floating-point computations of the pipeline, kept abstract.  Every
theorem below holds for every instantiation of this structure (IEEE-754
facts that a claim depends on appear as explicit hypotheses). -/
structure FloatModel where
  /-- decimal closure of `BitXor`: `from_float(powf(to_f64 a, to_f64 b))`;
  `none` models the `expect` panic on an infinite or NaN result. -/
  fpow : ℚ → ℚ → Option ℚ
  /-- the unary `f64` routines applied in the `Token::Function` arm of
  `resolve` (`sin`, `cos`, ..., `exp`); total, never panic. -/
  ffun1 : MathFunction → ℚ → ℚ
  /-- the binary `f64` routines `f64::max` / `f64::min`. -/
  ffun2 : MathFunction → ℚ → ℚ → ℚ
  /-- `From<Number> for f64` (`src/token.rs` lines 377-384), the lossy
  conversion feeding the `f64` math routines. -/
  toF : Number → ℚ
  /-- `t.parse::<f64>()` followed by `BigRational::from_float` in
  `Token::tokenize`. -/
  parseFloat : String → Option ℚ

/- ## Lexer: `Parser::process` (`src/parser.rs`)

`EXPRESSION_REGEX` is `(\d+\.?\d*|\.\d+|[-+*/^()=×÷!]|[a-zA-Z_][a-zA-Z0-9_]*|)`
and `process` collects the `find_iter` matches.  The alternation is
leftmost-first; the final empty alternative matches (an empty string) at any
position where no other alternative does, so the leftmost match always
starts at the iterator's current position.  On an empty match the iterator
advances one character, and — per the regex crate's match iterator — the
empty match is YIELDED only when its position differs from the end of the
last yielded match (`if Some(e) == self.last_match { skip }`); an empty
match immediately following another match is silently dropped.  Note the
character class contains neither `;` nor `,` nor the square brackets, so
those characters only ever produce (mostly skipped) empty matches.  -/

/-- single-character alternative `[-+*/^()=×÷!]` of `EXPRESSION_REGEX`. -/
def isRegexOpChar (c : Char) : Bool :=
  c = '-' || c = '+' || c = '*' || c = '/' || c = '^' || c = '(' || c = ')' ||
  c = '=' || c = '×' || c = '÷' || c = '!'

/-- first character of the identifier alternative `[a-zA-Z_]`. -/
def isIdentStart (c : Char) : Bool := c.isAlpha || c = '_'

/-- subsequent identifier characters `[a-zA-Z0-9_]`. -/
def isIdentChar (c : Char) : Bool := c.isAlphanum || c = '_'

/-- The optional `\.?\d*` tail of the numeric alternative: when the rest of
the input starts with `'.'`, the greedy match also consumes the dot and the
digits after it.  Returns the consumed characters and the remainder. -/
def dotTail : List Char → List Char × List Char
  | '.' :: r2 => ('.' :: r2.takeWhile Char.isDigit, r2.dropWhile Char.isDigit)
  | r1 => ([], r1)

/-- The regex match attempted at one position (leftmost-first over the four
non-empty alternatives, each greedy): returns the matched chunk and the rest,
or `none` when only the empty alternative matches. -/
def matchAt : List Char → Option (String × List Char)
  | [] => none
  | c :: cs =>
    if c.isDigit then
      -- \d+\.?\d*
      let tl := dotTail (cs.dropWhile Char.isDigit)
      some (⟨c :: cs.takeWhile Char.isDigit ++ tl.1⟩, tl.2)
    else if c = '.' then
      -- \.\d+
      match cs with
      | d :: _ =>
        if d.isDigit then
          some (⟨'.' :: cs.takeWhile Char.isDigit⟩, cs.dropWhile Char.isDigit)
        else none
      | [] => none
    else if isRegexOpChar c then
      some (⟨[c]⟩, cs)
    else if isIdentStart c then
      some (⟨c :: cs.takeWhile isIdentChar⟩, cs.dropWhile isIdentChar)
    else none

theorem length_dropWhile_le (p : Char → Bool) (l : List Char) :
    (l.dropWhile p).length ≤ l.length := by
  induction l with
  | nil => simp [List.dropWhile]
  | cons a l ih =>
    by_cases h : p a
    · have h2 : List.dropWhile p (a :: l) = List.dropWhile p l := by
        simp [List.dropWhile, h]
      rw [h2]
      simp only [List.length_cons]
      omega
    · simp [List.dropWhile, h]

theorem dotTail_length (l : List Char) : (dotTail l).2.length ≤ l.length := by
  match l with
  | [] => simp [dotTail]
  | c :: r2 =>
    by_cases h : c = '.'
    · subst h
      have := length_dropWhile_le Char.isDigit r2
      simp [dotTail]
      omega
    · have : dotTail (c :: r2) = ([], c :: r2) := by
        unfold dotTail
        split
        · rename_i heq
          exact absurd (List.head_eq_of_cons_eq heq) h
        · rfl
      simp [this]

theorem matchAt_consumes {cs : List Char} {t : String} {r : List Char}
    (h : matchAt cs = some (t, r)) : r.length < cs.length := by
  match cs with
  | [] => simp [matchAt] at h
  | c :: cs =>
    simp only [matchAt] at h
    by_cases hd : c.isDigit
    · simp only [hd, if_pos, Option.some.injEq, Prod.mk.injEq] at h
      have h2 := h.2
      have hdt := dotTail_length (cs.dropWhile Char.isDigit)
      have hdw := length_dropWhile_le Char.isDigit cs
      simp only [← h2]
      simp only [List.length_cons]
      omega
    · simp only [hd, Bool.false_eq_true, if_neg, not_false_iff] at h
      by_cases hdot : c = '.'
      · simp only [hdot, if_pos] at h
        match cs with
        | [] => simp at h
        | d :: cs' =>
          by_cases hdd : d.isDigit
          · simp only [hdd, if_pos, Option.some.injEq, Prod.mk.injEq] at h
            have := length_dropWhile_le Char.isDigit (d :: cs')
            rw [← h.2]
            simp only [List.length_cons] at this ⊢
            simp only [List.dropWhile, hdd] at this ⊢
            have := length_dropWhile_le Char.isDigit cs'
            omega
          · simp [hdd] at h
      · simp only [hdot, if_neg, not_false_iff] at h
        by_cases hop : isRegexOpChar c
        · simp [hop] at h; simp [← h.2]
        · simp only [hop, Bool.false_eq_true, if_neg, not_false_iff] at h
          by_cases hid : isIdentStart c
          · simp only [hid, if_pos, Option.some.injEq, Prod.mk.injEq] at h
            have := length_dropWhile_le isIdentChar cs
            rw [← h.2]
            simp only [List.length_cons]
            omega
          · simp [hid] at h

/-- `find_iter` over the source characters, with a fuel argument for
structural recursion (each step consumes at least one character, so any fuel
above the input length is sufficient — `scanGo_fuel_irrelevant` below).
`adjacent` tracks the iterator's `Some(current position) == self.last_match`
state: a non-empty match is always yielded and leaves `adjacent` true (the
next search starts exactly at its end); where only the empty alternative
matches, the iterator advances one character and yields the empty string
only when `adjacent` is false — an empty match immediately following the
previous match's end is skipped (this also covers the empty match at the
end of input). -/
def scanGo : ℕ → List Char → Bool → List String
  | 0, _, _ => []
  | fuel + 1, cs, adjacent =>
    match matchAt cs with
    | some (t, r) => t :: scanGo fuel r true
    | none =>
      match cs with
      | [] => if adjacent then [] else [""]
      | _ :: rest =>
        if adjacent then scanGo fuel rest false
        else "" :: scanGo fuel rest false

/-- The fuel of `scanGo` does not matter as long as it exceeds the input
length, so `scan` below is the honest unbounded iteration. -/
theorem scanGo_fuel_irrelevant : ∀ (n m : ℕ) (cs : List Char) (a : Bool),
    cs.length < n → cs.length < m → scanGo n cs a = scanGo m cs a := by
  intro n
  induction n with
  | zero => intro m cs a hn; omega
  | succ n ih =>
    intro m cs a hn hm
    match m with
    | 0 => omega
    | m + 1 =>
      simp only [scanGo]
      rcases hmt : matchAt cs with _ | ⟨t, r⟩
      · match cs with
        | [] => rfl
        | c :: rest =>
          simp only [List.length_cons] at hn hm
          dsimp only
          rw [ih m rest false (by omega) (by omega)]
      · have := matchAt_consumes hmt
        dsimp only
        rw [ih m r true (by omega) (by omega)]

/-- The `find_iter` collection over the source characters: the iteration
starts at position 0 with no previous match (`last_match = None`), so the
initial `adjacent` state is false. -/
def scan (cs : List Char) : List String := scanGo (cs.length + 1) cs false

/-- `Parser::process` (`src/parser.rs` lines 20-25). -/
def Parser.process (s : String) : List String := scan s.data

/- ## Tokenizer: `Token::tokenize` (`src/token.rs`) -/

/-- `Token::from_operator` (`src/token.rs` lines 144-156). -/
def Token.from_operator (c : Char) : Option Token :=
  if c = '+' then some (.Operator .Add)
  else if c = '-' then some (.Operator .Sub)
  else if c = '*' then some (.Operator .Mul)
  else if c = '/' then some (.Operator .Div)
  else if c = '^' then some (.Operator .Pow)
  else if c = '#' then some (.Operator .Une)
  else if c = '!' then some (.Operator .Fac)
  else if c = '=' then some (.Operator .Eql)
  else none

/-- `Token::from_bracket` (`src/token.rs` lines 161-167). -/
def Token.from_bracket (c : Char) : Option Token :=
  if c = '(' ∨ c = '[' then some (.Bracket .Open)
  else if c = ')' ∨ c = ']' then some (.Bracket .Close)
  else none

/-- Rust `str::to_lowercase`, restricted to per-character lowercasing
(the inputs here are ASCII). -/
def toLowerStr (s : String) : String := ⟨s.data.map Char.toLower⟩

/-- `Token::get_some` (`src/token.rs` lines 172-194): case-insensitive
function-name lookup. -/
def Token.get_some (fname : String) : Option MathFunction :=
  match toLowerStr fname with
  | "sin" => some .Sin
  | "cos" => some .Cos
  | "tan" => some .Tan
  | "asin" => some .ASin
  | "acos" => some .ACos
  | "atan" => some .ATan
  | "ln" => some .Ln
  | "log" => some .Log
  | "abs" => some .Abs
  | "sqrt" => some .Sqrt
  | "max" => some .Max
  | "min" => some .Min
  | "floor" => some .Floor
  | "ceil" => some .Ceil
  | "round" => some .Round
  | "exp" => some .Exp
  | "pdf" => some .Pdf
  | "cdf" => some .Cdf
  | _ => none

/-- `str::parse::<BigInt>`: an optional sign followed by at least one digit,
nothing else. -/
def digitsToNat : List Char → Option ℕ
  | [] => none
  | cs =>
    if cs.all Char.isDigit then
      some (cs.foldl (fun n c => 10 * n + (c.toNat - '0'.toNat)) 0)
    else none

/-- `str::parse::<BigInt>` on the whole chunk. -/
def parseBigInt (s : String) : Option ℤ :=
  match s.data with
  | '+' :: ds => (digitsToNat ds).map Int.ofNat
  | '-' :: ds => (digitsToNat ds).map (fun n => -(n : ℤ))
  | ds => (digitsToNat ds).map Int.ofNat

/-- the first-character operator guard of `Token::tokenize`
(`'+' | '-' | '*' | '/' | '^' | '!' | '='`; note: no `'#'`). -/
def isTokOpChar (c : Char) : Bool :=
  c = '+' || c = '-' || c = '*' || c = '/' || c = '^' || c = '!' || c = '='

/-- the first-character bracket guard of `Token::tokenize`. -/
def isTokBracketChar (c : Char) : Bool :=
  c = '(' || c = ')' || c = '[' || c = ']'

/-- `Token::tokenize` (`src/token.rs` lines 206-235).  The `f64` fallback
parse is the abstract `parseFloat` of the `FloatModel`. -/
def Token.tokenize (F : FloatModel) (t : String) : Option Token :=
  match t.data with
  | [] => none
  | c :: _ =>
    if isTokOpChar c then Token.from_operator c
    else if isTokBracketChar c then Token.from_bracket c
    else if c = ',' then some .Comma
    else if c = ';' then some .SemiColon
    else
      match parseBigInt t with
      | some v => some (.Operand (.NaturalNumber v))
      | none =>
        match F.parseFloat t with
        | some r => some (.Operand (.DecimalNumber r))
        | none =>
          match Token.get_some t with
          | some f => some (.Function f)
          | none => some (.Variable t)

/-- Modelled from the spec: `Token::tokenize_vec`, called by `Parser::parse`,
is not among the source files; per §4.1 the lexer tokenizes each chunk and
"Unparseable characters are dropped silently", so it maps `Token::tokenize`
over the chunks and drops the `None` results (empty regex matches). -/
def Token.tokenize_vec (F : FloatModel) (v : List String) : List Token :=
  v.filterMap (Token.tokenize F)

/- ## `Parser::mod_unary_operators` and `Parser::parse` (`src/parser.rs`) -/

/-- The loop of `Parser::mod_unary_operators` (`src/parser.rs` lines 35-69)
with the running `expect_operand_next` flag.  Note: after ANY operator that
is pushed — including the postfix `Fac` — the flag is set to `true`; only
`Operand` and `Variable` clear it; every other token (brackets, functions,
separators) leaves it unchanged. -/
def modUnaryGo : List Token → Bool → List Token
  | [], _ => []
  | t :: ts, expect =>
    match t with
    | .Operand _ => t :: modUnaryGo ts false
    | .Variable _ => t :: modUnaryGo ts false
    | .Operator o =>
      if expect then
        match o with
        | .Add => modUnaryGo ts expect                     -- unary + is dropped
        | .Sub => .Operator .Une :: modUnaryGo ts expect   -- unary - becomes Une
        | _ => t :: modUnaryGo ts true
      else t :: modUnaryGo ts true
    | _ => t :: modUnaryGo ts expect

/-- `Parser::mod_unary_operators`, flag initialized to `true`. -/
def Parser.mod_unary_operators (v : List Token) : List Token :=
  modUnaryGo v true

/-- `Parser::parse` (`src/parser.rs` lines 28-33): split, tokenize, then
normalize unary operators.  (The Rust signature wraps the result in an
always-`Ok` `Result`.) -/
def Parser.parse (F : FloatModel) (expr : String) : List Token :=
  Parser.mod_unary_operators (Token.tokenize_vec F (Parser.process expr))

/- ## Operator priority (`src/token.rs` lines 239-265) -/

/-- `Token::operator_priority`.  The Rust function panics on a non-operator
token ("This must not happen!"); that case is unreachable from
`reverse_polish_notation`, which only calls it on `Token::Operator`s, and is
given a dummy value here. -/
def Token.operator_priority : Token → ℕ × Associate
  | .Operator .Add => (1, .LeftAssociative)
  | .Operator .Sub => (1, .LeftAssociative)
  | .Operator .Mul => (2, .LeftAssociative)
  | .Operator .Div => (2, .LeftAssociative)
  | .Operator .Pow => (3, .RightAssociative)
  | .Operator .Une => (4, .RightAssociative)
  | .Operator .Fac => (5, .LeftAssociative)
  | .Operator .Eql => (0, .RightAssociative)
  | _ => (0, .LeftAssociative)

/-- `Token::compare_operator_priority` (`src/token.rs` lines 259-265). -/
def Token.compare_operator_priority (op1 op2 : Token) : Bool :=
  let v1 := Token.operator_priority op1
  let v2 := Token.operator_priority op2
  (v1.2 = .LeftAssociative && v1.1 ≤ v2.1) ||
  (v1.2 = .RightAssociative && v1.1 < v2.1)

/- ## The variable heap (`HashMap<String, Number>` behind `Rc<RefCell<..>>`) -/

/-- The variable heap, modelled as an association list (lookup by the first
matching key; `insert` replaces an existing binding). -/
abbrev Heap := List (String × Number)

/-- `HashMap::get`. -/
def Heap.get (h : Heap) (k : String) : Option Number :=
  match h with
  | [] => none
  | (k', v) :: rest => if k' = k then some v else Heap.get rest k

/-- `HashMap::insert`: replaces the existing binding or appends a new one. -/
def Heap.insert (h : Heap) (k : String) (v : Number) : Heap :=
  match h with
  | [] => [(k, v)]
  | (k', v') :: rest =>
    if k' = k then (k', v) :: rest else (k', v') :: Heap.insert rest k v

/-- `Entry::or_insert`: inserts the default only when the key is absent
(`reverse_polish_notation`'s "let's not override consts"). -/
def Heap.or_insert (h : Heap) (k : String) (v : Number) : Heap :=
  match Heap.get h k with
  | some _ => h
  | none => Heap.insert h k v

/- ## `RpnResolver::reverse_polish_notation` (`src/rpn_resolver.rs` 232-346)

The operator stack is a `Vec` (push/pop at the end); it is modelled as a list
whose HEAD is the TOP of the stack.  The postfix output is built back-to-front
by appending. -/

/-- The `Token::Bracket(Close)` arm: pop operators to the output until an
`Open` bracket is popped (and discarded); if the new stack top is then a
`Function`, pop it to the output too.  Returns (emitted tokens in order,
remaining operator stack).  An unmatched `)` silently exhausts the stack. -/
def popUntilOpen : List Token → List Token × List Token
  | [] => ([], [])
  | .Bracket .Open :: rest =>
    match rest with
    | .Function f :: rest2 => ([.Function f], rest2)
    | _ => ([], rest)
  | tok :: rest =>
    let (e, r) := popUntilOpen rest
    (tok :: e, r)

/-- The `Token::Comma` arm: pop operators to the output until the stack top
is an `Open` bracket (which stays on the stack). -/
def popUntilOpenKeep : List Token → List Token × List Token
  | [] => ([], [])
  | .Bracket .Open :: rest => ([], .Bracket .Open :: rest)
  | tok :: rest =>
    let (e, r) := popUntilOpenKeep rest
    (tok :: e, r)

/-- The `Token::Operator` arm's while-loop: pop an operator `op2` while
`compare_operator_priority op1 op2` holds; pop any `Function` at the top
unconditionally; stop at anything else. -/
def popOps (op1 : Token) : List Token → List Token × List Token
  | [] => ([], [])
  | op2 :: rest =>
    match op2 with
    | .Operator _ =>
      if Token.compare_operator_priority op1 op2 then
        let (e, r) := popOps op1 rest
        (op2 :: e, r)
      else ([], op2 :: rest)
    | .Function _ =>
      let (e, r) := popOps op1 rest
      (op2 :: e, r)
    | _ => ([], op2 :: rest)

/-- The main scan of `reverse_polish_notation`: `out` is the postfix output
built so far (in order), `ops` the operator stack (head = top). -/
def rpnGo : List Token → List Token → List Token → Heap →
    List Token × Heap
  | [], out, ops, heap =>
    -- pop remaining operators in LIFO order
    (out ++ ops, heap)
  | t :: ts, out, ops, heap =>
    match t with
    | .Operand _ => rpnGo ts (out ++ [t]) ops heap
    | .Bracket .Open => rpnGo ts out (t :: ops) heap
    | .Bracket .Close =>
      let (e, r) := popUntilOpen ops
      rpnGo ts (out ++ e) r heap
    | .Comma =>
      let (e, r) := popUntilOpenKeep ops
      rpnGo ts (out ++ e) r heap
    | .SemiColon =>
      rpnGo ts (out ++ ops ++ [.SemiColon]) [] heap
    | .Operator _ =>
      let (e, r) := popOps t ops
      rpnGo ts (out ++ e) (t :: r) heap
    | .Function _ => rpnGo ts out (t :: ops) heap
    | .Variable s =>
      rpnGo ts (out ++ [t]) ops
        (heap.or_insert (toLowerStr s) (.NaturalNumber 0))

/-- `RpnResolver::reverse_polish_notation`: infix tokens to postfix tokens,
registering each variable in the heap with a default of `NaturalNumber 0`. -/
def RpnResolver.reverse_polish_notation
    (infix_stack : List Token) (local_heap : Heap) : List Token × Heap :=
  rpnGo infix_stack [] [] local_heap

/-- `RpnResolver::parse_with_borrowed_heap` (`src/rpn_resolver.rs` 37-49):
`Parser::parse` then `reverse_polish_notation`.  Returns the compiled postfix
expression and the heap (with the registered variables). -/
def RpnResolver.parse_with_borrowed_heap (F : FloatModel) (exp : String)
    (borrowed_heap : Heap) : List Token × Heap :=
  RpnResolver.reverse_polish_notation (Parser.parse F exp) borrowed_heap

/- ## `RpnResolver::resolve` (`src/rpn_resolver.rs` lines 53-224) -/

/-- The recoverable `anyhow` errors raised by `resolve`, by message class. -/
inductive EvalErr where
  /-- any message prefixed by `MALFORMED_ERR` ("The mathematical expression
  is malformed."): operand-stack underflow for operators or functions, a
  bracket or comma token reaching the evaluator (the defensive `_` arm), or
  an empty stack at the end. -/
  | MalformedExpression
  /-- `DIVISION_ZERO_ERR` -/
  | DivisionByZero
  /-- `NO_VARIABLE_ERR` -/
  | NoVariableForAssignment
  /-- `FACTORIAL_NATURAL_ERR` (negative or decimal operand) -/
  | FactorialDomain
  /-- "Runtime Error: Factorial operand is too large" (`to_u64` failure) -/
  | FactorialTooLarge
  /-- "This should never happen!" (`MathFunction::None` reaching evaluation) -/
  | UnsupportedFunction
  deriving DecidableEq, Repr

/-- Outcome of the evaluation loop: normal completion with the operand and
variable stacks, a recoverable error, or a Rust panic (process abort). -/
inductive LoopRes where
  | ok (stack : List Number) (vars : List (Option String))
  | err (e : EvalErr)
  | panic
  deriving DecidableEq, Repr

/-- Final outcome of `resolve`: a value, a recoverable error, or a panic. -/
inductive RRes where
  | val (n : Number)
  | err (e : EvalErr)
  | panic
  deriving DecidableEq, Repr

/-- `RpnResolver::factorial_helper` (`src/rpn_resolver.rs` lines 348-356):
naive recursive factorial over `BigUint`. -/
def RpnResolver.factorial_helper : ℕ → ℕ
  | 0 => 1
  | n + 1 => (n + 1) * RpnResolver.factorial_helper n

/-- One `Token::Operator` step of the evaluation loop, after the right
operand (and for binary operators the left operand and its tracked variable
name) have been popped.  Returns either the new stacks and heap, or an
aborting outcome.  `none` results of the numeric operations are Rust panics. -/
def operStep (F : FloatModel) (op : Operator) (right left : Number)
    (left_var : Option String) (st : List Number)
    (vs : List (Option String)) (heap : Heap) :
    (List Number × List (Option String) × Heap) ⊕ (Heap × LoopRes) :=
  match op with
  | .Add =>
    match Number.add left right with
    | some v => .inl (v :: st, none :: vs, heap)
    | none => .inr (heap, .panic)
  | .Sub =>
    match Number.sub left right with
    | some v => .inl (v :: st, none :: vs, heap)
    | none => .inr (heap, .panic)
  | .Mul =>
    match Number.mul left right with
    | some v => .inl (v :: st, none :: vs, heap)
    | none => .inr (heap, .panic)
  | .Div =>
    -- `if right_value == zero { return Err(DIVISION_ZERO_ERR) }` — the
    -- derived PartialEq, so only the Integer representation of zero matches
    if Number.eqb right (.NaturalNumber 0) then .inr (heap, .err .DivisionByZero)
    else
      -- `left_value = Number::DecimalNumber(left_value.into());`
      match Number.div (.DecimalNumber left.val) right with
      | some v => .inl (v :: st, none :: vs, heap)
      | none => .inr (heap, .panic)
  | .Pow =>
    if Number.ltb right (.NaturalNumber 0) then
      if Number.eqb left (.NaturalNumber 0) then .inr (heap, .err .DivisionByZero)
      else
        match Number.bitxor F.fpow (.DecimalNumber left.val) right with
        | some v => .inl (v :: st, none :: vs, heap)
        | none => .inr (heap, .panic)
    else
      match Number.bitxor F.fpow left right with
      | some v => .inl (v :: st, none :: vs, heap)
      | none => .inr (heap, .panic)
  | .Eql =>
    match left_var with
    | some var => .inl (right :: st, none :: vs, Heap.insert heap var right)
    | none => .inr (heap, .err .NoVariableForAssignment)
  | .Fac =>
    match right with
    | .NaturalNumber v =>
      if v < 0 then .inr (heap, .err .FactorialDomain)
      else if v < 18446744073709551616 then  -- `v.to_u64()` succeeds iff v < 2^64
        .inl (.NaturalNumber (RpnResolver.factorial_helper v.toNat) :: st,
              none :: vs, heap)
      else .inr (heap, .err .FactorialTooLarge)
    | .DecimalNumber _ => .inr (heap, .err .FactorialDomain)
  | .Une =>
    match Number.mul right (.NaturalNumber (-1)) with
    | some v => .inl (v :: st, none :: vs, heap)
    | none => .inr (heap, .panic)

/-- The token loop of `RpnResolver::resolve`.  `st` is the operand stack and
`vs` the parallel variable-name stack (head = back/top of the `VecDeque`). -/
def resolveLoop (F : FloatModel) : List Token → List Number →
    List (Option String) → Heap → Heap × LoopRes
  | [], st, vs, heap => (heap, .ok st vs)
  | t :: ts, st, vs, heap =>
    match t with
    | .Operand n => resolveLoop F ts (n :: st) (none :: vs) heap
    | .Operator op =>
      match st with
      | [] => (heap, .err .MalformedExpression)  -- "Invalid Right Operand."
      | right :: st1 =>
        let vs1 := vs.tail       -- unconditional `var_stack.pop_back()`
        if op = .Une ∨ op = .Fac then
          -- unary: left operand is `zero.clone()`, no further pops
          match operStep F op right (.NaturalNumber 0) none st1 vs1 heap with
          | .inl (st2, vs2, h2) => resolveLoop F ts st2 vs2 h2
          | .inr out => out
        else
          match st1 with
          | [] => (heap, .err .MalformedExpression)  -- "Invalid Left Operand."
          | left :: st2 =>
            let left_var := vs1.head?.getD none  -- `pop_back().unwrap_or(None)`
            let vs2 := vs1.tail
            match operStep F op right left left_var st2 vs2 heap with
            | .inl (st3, vs3, h3) => resolveLoop F ts st3 vs3 h3
            | .inr out => out
    | .Variable v =>
      let var_name := toLowerStr v
      -- `heap.get(..).unwrap_or(&Number::DecimalNumber(0.))`
      let n := (Heap.get heap var_name).getD (.DecimalNumber 0)
      resolveLoop F ts (n :: st) (some var_name :: vs) heap
    | .Function f =>
      match st with
      | [] => (heap, .err .MalformedExpression)  -- "Wrong use of function"
      | value :: st1 =>
        let vs1 := vs.tail
        match f with
        | .Max =>
          match st1 with
          | [] => (heap, .err .MalformedExpression)
          | value2 :: st2 =>
            resolveLoop F ts
              (.DecimalNumber (F.ffun2 .Max (F.toF value) (F.toF value2)) :: st2)
              (none :: vs1.tail) heap
        | .Min =>
          match st1 with
          | [] => (heap, .err .MalformedExpression)
          | value2 :: st2 =>
            resolveLoop F ts
              (.DecimalNumber (F.ffun2 .Min (F.toF value) (F.toF value2)) :: st2)
              (none :: vs1.tail) heap
        | .None => (heap, .err .UnsupportedFunction)
        | g =>
          resolveLoop F ts (.DecimalNumber (F.ffun1 g (F.toF value)) :: st1)
            (none :: vs1) heap
    | .SemiColon => resolveLoop F ts [] [] heap
    | .Bracket _ => (heap, .err .MalformedExpression)  -- defensive `_` arm
    | .Comma => (heap, .err .MalformedExpression)      -- defensive `_` arm

/-- `RpnResolver::resolve`: run the loop, then
`result_stack.pop_front().ok_or(MALFORMED_ERR)` — the FRONT of the deque is
the earliest-pushed surviving value, i.e. the LAST element of our
top-first list.  There is no check that exactly one value remains. -/
def RpnResolver.resolve (F : FloatModel) (rpn_expr : List Token)
    (local_heap : Heap) : Heap × RRes :=
  match resolveLoop F rpn_expr [] [] local_heap with
  | (h, .ok st _) =>
    match st.getLast? with
    | some v => (h, .val v)
    | none => (h, .err .MalformedExpression)
  | (h, .err e) => (h, .err e)
  | (h, .panic) => (h, .panic)

/-- The full pipeline on one expression string, as `Session::process`
followed by `RpnResolver::resolve`: parse, convert to postfix (registering
variables in the heap), then evaluate. -/
def fullResolve (F : FloatModel) (exp : String) (heap : Heap) : Heap × RRes :=
  let (rpn, h1) := RpnResolver.parse_with_borrowed_heap F exp heap
  RpnResolver.resolve F rpn h1

/-- A concrete `FloatModel` instantiation used for closed witnesses and
counterexamples; its `fpow` realizes the IEEE-754 facts
`powf(±0, y) = +inf` for `y < 0` (so `BigRational::from_float` fails). -/
def F0 : FloatModel where
  fpow := fun a b => if a = 0 ∧ b < 0 then none else some 0
  ffun1 := fun _ _ => 0
  ffun2 := fun _ _ _ => 0
  toF := Number.val
  parseFloat := fun _ => none

/- ## Helper lemmas -/

/-- The heap component of an `operStep` outcome. -/
def stepHeap : (List Number × List (Option String) × Heap) ⊕ (Heap × LoopRes) → Heap
  | .inl (_, _, h) => h
  | .inr (h, _) => h

theorem stepHeap_operStep (F : FloatModel) (op : Operator) (right left : Number)
    (lv : Option String) (st : List Number) (vs : List (Option String))
    (h : Heap) (hop : op ≠ .Eql) :
    stepHeap (operStep F op right left lv st vs h) = h := by
  cases op
  case Eql => exact absurd rfl hop
  all_goals
    simp only [operStep]
    repeat' split
  all_goals rfl

/- ## Claim theorems -/

/-- Claim C1 (code_bug): the claim — confirmed by the repository's own
integration test `resolve!("4! - 3!", NaturalNumber(18))` — says the pipeline
yields Integer 18, with the `-` after `4!` parsed as binary subtraction.  The
code disagrees: `mod_unary_operators` sets `expect_operand_next` after EVERY
operator, including the postfix `!`, so the `-` becomes a unary negation
(`Une`); evaluation then leaves the two values 24 and −6 on the stack and
`pop_front` returns 24.  This theorem evaluates the code at the failing
input. -/
theorem C1_factorial_pipeline_returns_24 (F : FloatModel) (h : Heap) :
    Parser.parse F "4! - 3!" =
      [.Operand (.NaturalNumber 4), .Operator .Fac, .Operator .Une,
       .Operand (.NaturalNumber 3), .Operator .Fac] ∧
    fullResolve F "4! - 3!" h = (h, .val (.NaturalNumber 24)) :=
  ⟨rfl, rfl⟩

/-- Claim C2, counterexample: a postfix sequence that ends with TWO values on
the operand stack does not produce `MalformedExpression` as the claim states;
`resolve` returns the earliest-pushed value `1`. -/
theorem C2_leftover_values_counterexample :
    RpnResolver.resolve F0
        [.Operand (.NaturalNumber 1), .Operand (.NaturalNumber 2)] [] =
      ([], .val (.NaturalNumber 1)) ∧
    RRes.val (.NaturalNumber 1) ≠ RRes.err .MalformedExpression :=
  ⟨rfl, by decide⟩

/-- Claim C2 (corrected): `resolve` returns `MalformedExpression` exactly
when the processing loop itself signals it (operand-stack underflow, or a
bracket/comma token reaching the evaluator) or when the loop completes with
an EMPTY operand stack; when the loop completes with one or more values,
`resolve` returns the earliest-pushed remaining value (the deque front) —
leftover extra values are NOT detected. -/
theorem C2_resolve_malformed_characterization (F : FloatModel)
    (ts : List Token) (h : Heap) :
    ((RpnResolver.resolve F ts h).2 = .err .MalformedExpression ↔
      ((resolveLoop F ts [] [] h).2 = .err .MalformedExpression ∨
        ∃ vs, (resolveLoop F ts [] [] h).2 = .ok [] vs)) ∧
    (∀ st vs, (resolveLoop F ts [] [] h).2 = .ok st vs →
      ∀ v, st.getLast? = some v →
        (RpnResolver.resolve F ts h).2 = .val v) := by
  rcases hl : resolveLoop F ts [] [] h with ⟨h', res⟩
  cases res with
  | ok st vs =>
    have hres : RpnResolver.resolve F ts h =
        (match st.getLast? with
          | some v => (h', RRes.val v)
          | none => (h', RRes.err .MalformedExpression)) := by
      unfold RpnResolver.resolve
      rw [hl]
    rcases hlast : st.getLast? with _ | v
    · rw [hlast] at hres
      have hst : st = [] := List.getLast?_eq_none_iff.mp hlast
      subst hst
      refine ⟨⟨fun _ => Or.inr ⟨vs, rfl⟩, fun _ => by rw [hres]⟩, ?_⟩
      intro st' vs' hok v hv
      injection hok with h1 h2
      subst h1
      simp at hv
    · rw [hlast] at hres
      have hne : st ≠ [] := by
        intro he; subst he; simp at hlast
      refine ⟨⟨fun hc => ?_, fun hc => ?_⟩, ?_⟩
      · rw [hres] at hc; simp at hc
      · rcases hc with hc | ⟨vs', hc⟩
        · simp at hc
        · injection hc with h1 _
          exact absurd h1 hne
      · intro st' vs' hok w hw
        injection hok with h1 h2
        subst h1
        rw [hw] at hlast
        injection hlast with h3
        subst h3
        rw [hres]
  | err e =>
    have hres : RpnResolver.resolve F ts h = (h', RRes.err e) := by
      unfold RpnResolver.resolve
      rw [hl]
    refine ⟨⟨fun hc => ?_, fun hc => ?_⟩, ?_⟩
    · rw [hres] at hc
      exact Or.inl (by simpa using hc)
    · rcases hc with hc | ⟨vs', hc⟩
      · injection hc with h1
        subst h1
        rw [hres]
      · simp at hc
    · intro st' vs' hok
      simp at hok
  | panic =>
    have hres : RpnResolver.resolve F ts h = (h', RRes.panic) := by
      unfold RpnResolver.resolve
      rw [hl]
    refine ⟨⟨fun hc => ?_, fun hc => ?_⟩, ?_⟩
    · rw [hres] at hc; simp at hc
    · rcases hc with hc | ⟨vs', hc⟩ <;> simp at hc
    · intro st' vs' hok
      simp at hok

/-- Witness for C2's characterization at a concrete input. -/
theorem C2_resolve_malformed_characterization_witness :
    (RpnResolver.resolve F0 [.Operand (.NaturalNumber 7)] []).2 =
      .val (.NaturalNumber 7) :=
  (C2_resolve_malformed_characterization F0 [.Operand (.NaturalNumber 7)] []).2
    [.NaturalNumber 7] [none] rfl (.NaturalNumber 7) rfl

/-- Claim C3, counterexample: `NaturalNumber 0` and `DecimalNumber 0` denote
the same numeric value and indeed compare as `Equal` under `PartialOrd`, yet
the derived `PartialEq` says they are NOT equal — equality is by
representation, not by numeric value as the claim states. -/
theorem C3_zero_equality_counterexample :
    Number.eqb (.NaturalNumber 0) (.DecimalNumber 0) = false ∧
    Number.partial_cmp (.NaturalNumber 0) (.DecimalNumber 0) = some .eq := by
  constructor
  · rfl
  · simp [Number.partial_cmp, cmpRat]

/-- Claim C3 (corrected): ordering (`partial_cmp`) is determined by numeric
value across the two variants, but equality is the derived, representational
one — two `Number`s are `PartialEq`-equal exactly when they are the same
variant with the same payload; `NaturalNumber n` never equals
`DecimalNumber d`, even when both denote the same value. -/
theorem C3_order_by_value_eq_by_representation :
    (∀ a b : Number, Number.partial_cmp a b = some (cmpRat a.val b.val)) ∧
    (∀ a b : Number, Number.eqb a b = true ↔ a = b) := by
  constructor
  · rintro (⟨z1⟩ | ⟨q1⟩) (⟨z2⟩ | ⟨q2⟩) <;>
      simp [Number.partial_cmp, Number.val, cmpInt, cmpRat]
  · rintro (⟨z1⟩ | ⟨q1⟩) (⟨z2⟩ | ⟨q2⟩) <;> simp [Number.eqb]

/-- Witness for C3's corrected statement at a concrete input. -/
theorem C3_order_by_value_eq_by_representation_witness :
    Number.eqb (.NaturalNumber 3) (.NaturalNumber 3) = true :=
  (C3_order_by_value_eq_by_representation.2
    (.NaturalNumber 3) (.NaturalNumber 3)).mpr rfl

/-- Claim C7 (confirmed): `"2^3^2"` evaluates to Integer 512 — the power
operator is right-associative (`compare_operator_priority` is false for
`Pow` against `Pow`, so the stacked `^` is not popped), grouping as
`2^(3^2)`, not `(2^3)^2 = 64`. -/
theorem C7_pow_right_associative (F : FloatModel) (h : Heap) :
    fullResolve F "2^3^2" h = (h, .val (.NaturalNumber 512)) ∧
    Token.compare_operator_priority (.Operator .Pow) (.Operator .Pow) = false :=
  ⟨rfl, rfl⟩

/-- Claim C8 (code_bug): the claim — and the spec's shared-state property —
says `"x=10;x^2"` commits `x = 10` to the shared environment.  In the code
`EXPRESSION_REGEX` has no `;` in its character class (even though
`Token::tokenize`, `reverse_polish_notation` and `resolve` all implement a
`SemiColon` statement separator), so the `;` is dropped, the expression is
parsed as one statement, the `=` pops the result of `x^2` (whose tracked
variable slot is `None`), and evaluation fails with
`NoVariableForAssignment`, leaving `x` at its registered default `0`. -/
theorem C8_semicolon_dropped_assignment_lost :
    Parser.process "x=10;x^2" = ["x", "=", "10", "x", "^", "2"] ∧
    fullResolve F0 "x=10;x^2" [] =
      ([("x", .NaturalNumber 0)], .err .NoVariableForAssignment) :=
  ⟨rfl, rfl⟩

/-- Claim C4, counterexample: a division whose right operand denotes exactly
zero but is represented as `DecimalNumber 0` is NOT caught by the
`right_value == zero` test (the derived `PartialEq` compares it against
`NaturalNumber(0)` and fails), so the rational division panics instead of
returning the `DivisionByZero` error the claim demands. -/
theorem C4_decimal_zero_divisor_counterexample :
    RpnResolver.resolve F0
        [.Operand (.NaturalNumber 1), .Operand (.DecimalNumber 0),
         .Operator .Div] [] = ([], .panic) ∧
    RRes.panic ≠ RRes.err .DivisionByZero :=
  ⟨rfl, by decide⟩

/-- Claim C4 (corrected): `resolve` returns `DivisionByZero` for a division
exactly when the divisor is the INTEGER representation of zero
(`NaturalNumber 0`); a `DecimalNumber 0` divisor instead panics in the
rational division.  Likewise for powers: a negative exponent over the
Integer zero base gives `DivisionByZero`, while over the Decimal zero base
the float `powf` produces `+inf` and `BigRational::from_float` panics. -/
theorem C4_division_by_zero_integer_only (F : FloatModel) (h : Heap)
    (l : Number) (e : ℤ) (he : e < 0) (hf : F.fpow 0 (e : ℚ) = none) :
    RpnResolver.resolve F
        [.Operand l, .Operand (.NaturalNumber 0), .Operator .Div] h =
      (h, .err .DivisionByZero) ∧
    RpnResolver.resolve F
        [.Operand l, .Operand (.DecimalNumber 0), .Operator .Div] h =
      (h, .panic) ∧
    RpnResolver.resolve F
        [.Operand (.NaturalNumber 0), .Operand (.NaturalNumber e),
         .Operator .Pow] h = (h, .err .DivisionByZero) ∧
    RpnResolver.resolve F
        [.Operand (.DecimalNumber 0), .Operand (.NaturalNumber e),
         .Operator .Pow] h = (h, .panic) := by
  have hlt : Number.ltb (.NaturalNumber e) (.NaturalNumber 0) = true := by
    simp [Number.ltb, Number.partial_cmp, cmpInt, he]
  refine ⟨rfl, rfl, ?_, ?_⟩
  · simp [RpnResolver.resolve, resolveLoop, operStep, hlt, Number.eqb]
  · simp [RpnResolver.resolve, resolveLoop, operStep, hlt, Number.eqb,
      Number.bitxor, apply_functional_token_operation, Number.val, hf]

/-- Witness for C4's corrected statement at concrete inputs. -/
theorem C4_division_by_zero_integer_only_witness :
    RpnResolver.resolve F0
        [.Operand (.NaturalNumber 7), .Operand (.NaturalNumber 0),
         .Operator .Div] [] = ([], .err .DivisionByZero) ∧
    RpnResolver.resolve F0
        [.Operand (.NaturalNumber 7), .Operand (.DecimalNumber 0),
         .Operator .Div] [] = ([], .panic) ∧
    RpnResolver.resolve F0
        [.Operand (.NaturalNumber 0), .Operand (.NaturalNumber (-1)),
         .Operator .Pow] [] = ([], .err .DivisionByZero) ∧
    RpnResolver.resolve F0
        [.Operand (.DecimalNumber 0), .Operand (.NaturalNumber (-1)),
         .Operator .Pow] [] = ([], .panic) :=
  C4_division_by_zero_integer_only F0 [] (.NaturalNumber 7) (-1)
    (by decide) (by decide)

/-- Claim C5, counterexample: the claim says evaluation never panics on any
input expression, including a Decimal divisor equal to zero.  The expression
`"1/(1-2/2)"` (integer literals only) produces the divisor
`DecimalNumber 0`, which escapes the `right_value == zero` check and makes
the rational division abort the process. -/
theorem C5_pipeline_panic_counterexample :
    fullResolve F0 "1/(1-2/2)" [] = ([], .panic) ∧
    RRes.panic ≠ RRes.err .DivisionByZero := by
  constructor
  · -- lexing and shunting-yard reduce definitionally to the postfix form
    have h1 : fullResolve F0 "1/(1-2/2)" [] =
        RpnResolver.resolve F0
          [.Operand (.NaturalNumber 1), .Operand (.NaturalNumber 1),
           .Operand (.NaturalNumber 2), .Operand (.NaturalNumber 2),
           .Operator .Div, .Operator .Sub, .Operator .Div] [] := rfl
    rw [h1]
    have h22 : ((2 : ℚ)) / ((2 : ℚ)) = 1 := by norm_num
    simp [RpnResolver.resolve, resolveLoop, operStep, Number.eqb, Number.sub,
      Number.div, apply_functional_token_operation, Number.val, h22]
  · decide

/-- Claim C5 (corrected): each listed failure class — operand-stack
underflow, division by (Integer) zero, power domain violation (Integer zero
base, negative exponent), factorial domain violation, assignment with no
variable — is returned as a recoverable error; BUT evaluation can abort the
process: a `DecimalNumber 0` divisor panics in the rational division, and an
Integer-base power whose exponent does not fit in the `u32` machine word
panics in the `try_into().unwrap()` narrowing. -/
theorem C5_recoverable_errors_and_panics (F : FloatModel) (h : Heap)
    (l r : Number) (q : ℚ) (v e : ℤ) (hv : v < 0) (he : e < 0) :
    RpnResolver.resolve F [.Operator .Add] h =
      (h, .err .MalformedExpression) ∧
    RpnResolver.resolve F [.Operand l, .Operator .Sub] h =
      (h, .err .MalformedExpression) ∧
    RpnResolver.resolve F
        [.Operand l, .Operand (.NaturalNumber 0), .Operator .Div] h =
      (h, .err .DivisionByZero) ∧
    RpnResolver.resolve F
        [.Operand (.NaturalNumber 0), .Operand (.NaturalNumber e),
         .Operator .Pow] h = (h, .err .DivisionByZero) ∧
    RpnResolver.resolve F [.Operand (.NaturalNumber v), .Operator .Fac] h =
      (h, .err .FactorialDomain) ∧
    RpnResolver.resolve F [.Operand (.DecimalNumber q), .Operator .Fac] h =
      (h, .err .FactorialDomain) ∧
    RpnResolver.resolve F [.Operand l, .Operand r, .Operator .Eql] h =
      (h, .err .NoVariableForAssignment) ∧
    RpnResolver.resolve F
        [.Operand l, .Operand (.DecimalNumber 0), .Operator .Div] h =
      (h, .panic) ∧
    RpnResolver.resolve F
        [.Operand (.NaturalNumber 2), .Operand (.NaturalNumber 4294967296),
         .Operator .Pow] h = (h, .panic) := by
  have hlt : Number.ltb (.NaturalNumber e) (.NaturalNumber 0) = true := by
    simp [Number.ltb, Number.partial_cmp, cmpInt, he]
  have hv' : ¬((0 : ℤ) ≤ v) := by omega
  refine ⟨rfl, rfl, rfl, ?_, ?_, rfl, rfl, rfl, rfl⟩
  · simp [RpnResolver.resolve, resolveLoop, operStep, hlt, Number.eqb]
  · simp [RpnResolver.resolve, resolveLoop, operStep, hv]

/-- Witness for C5's corrected statement at concrete inputs. -/
theorem C5_recoverable_errors_and_panics_witness :
    RpnResolver.resolve F0 [.Operator .Add] [] =
      ([], .err .MalformedExpression) ∧
    RpnResolver.resolve F0 [.Operand (.NaturalNumber 9), .Operator .Sub] [] =
      ([], .err .MalformedExpression) ∧
    RpnResolver.resolve F0
        [.Operand (.NaturalNumber 9), .Operand (.NaturalNumber 0),
         .Operator .Div] [] = ([], .err .DivisionByZero) ∧
    RpnResolver.resolve F0
        [.Operand (.NaturalNumber 0), .Operand (.NaturalNumber (-2)),
         .Operator .Pow] [] = ([], .err .DivisionByZero) ∧
    RpnResolver.resolve F0
        [.Operand (.NaturalNumber (-1)), .Operator .Fac] [] =
      ([], .err .FactorialDomain) ∧
    RpnResolver.resolve F0 [.Operand (.DecimalNumber 5), .Operator .Fac] [] =
      ([], .err .FactorialDomain) ∧
    RpnResolver.resolve F0
        [.Operand (.NaturalNumber 9), .Operand (.NaturalNumber 8),
         .Operator .Eql] [] = ([], .err .NoVariableForAssignment) ∧
    RpnResolver.resolve F0
        [.Operand (.NaturalNumber 9), .Operand (.DecimalNumber 0),
         .Operator .Div] [] = ([], .panic) ∧
    RpnResolver.resolve F0
        [.Operand (.NaturalNumber 2), .Operand (.NaturalNumber 4294967296),
         .Operator .Pow] [] = ([], .panic) :=
  C5_recoverable_errors_and_panics F0 [] (.NaturalNumber 9)
    (.NaturalNumber 8) 5 (-1) (-2) (by decide) (by decide)

/-- Claim C6 (confirmed): `add`, `sub` and `mul` of two `NaturalNumber`s
yield a `NaturalNumber`; division promotes the left operand to Decimal
first, so it yields a `DecimalNumber` even when two Integers divide exactly;
`"4+2"` evaluates to Integer 6, `"4/2"` to Decimal 2. -/
theorem C6_integer_closure_and_division_promotion (F : FloatModel) (h : Heap)
    (a b : ℤ) (hb : b ≠ 0) :
    Number.add (.NaturalNumber a) (.NaturalNumber b) =
      some (.NaturalNumber (a + b)) ∧
    Number.sub (.NaturalNumber a) (.NaturalNumber b) =
      some (.NaturalNumber (a - b)) ∧
    Number.mul (.NaturalNumber a) (.NaturalNumber b) =
      some (.NaturalNumber (a * b)) ∧
    RpnResolver.resolve F
        [.Operand (.NaturalNumber a), .Operand (.NaturalNumber b),
         .Operator .Div] h =
      (h, .val (.DecimalNumber ((a : ℚ) / (b : ℚ)))) ∧
    fullResolve F "4+2" h = (h, .val (.NaturalNumber 6)) ∧
    fullResolve F "4/2" h = (h, .val (.DecimalNumber 2)) := by
  have hbeq : Number.eqb (.NaturalNumber b) (.NaturalNumber 0) = false := by
    simp [Number.eqb, hb]
  have hb' : ((b : ℚ)) ≠ 0 := Int.cast_ne_zero.mpr hb
  refine ⟨rfl, rfl, rfl, ?_, rfl, ?_⟩
  · simp [RpnResolver.resolve, resolveLoop, operStep, hbeq, Number.div,
      apply_functional_token_operation, Number.val, hb']
  · -- lexing and shunting-yard reduce definitionally to the postfix form
    have h1 : fullResolve F "4/2" h =
        RpnResolver.resolve F
          [.Operand (.NaturalNumber 4), .Operand (.NaturalNumber 2),
           .Operator .Div] h := rfl
    rw [h1]
    have h42 : ((4 : ℚ)) / ((2 : ℚ)) = 2 := by norm_num
    simp [RpnResolver.resolve, resolveLoop, operStep, Number.eqb, Number.div,
      apply_functional_token_operation, Number.val, h42]

/-- Witness for C6 at concrete inputs. -/
theorem C6_integer_closure_and_division_promotion_witness :
    Number.add (.NaturalNumber 4) (.NaturalNumber 2) =
      some (.NaturalNumber (4 + 2)) ∧
    Number.sub (.NaturalNumber 4) (.NaturalNumber 2) =
      some (.NaturalNumber (4 - 2)) ∧
    Number.mul (.NaturalNumber 4) (.NaturalNumber 2) =
      some (.NaturalNumber (4 * 2)) ∧
    RpnResolver.resolve F0
        [.Operand (.NaturalNumber 4), .Operand (.NaturalNumber 2),
         .Operator .Div] [] =
      ([], .val (.DecimalNumber ((4 : ℚ) / (2 : ℚ)))) ∧
    fullResolve F0 "4+2" [] = ([], .val (.NaturalNumber 6)) ∧
    fullResolve F0 "4/2" [] = ([], .val (.DecimalNumber 2)) :=
  C6_integer_closure_and_division_promotion F0 [] 4 2 (by decide)

/-- Only the `Eql` arm of `operStep` touches the heap. -/
theorem resolveLoop_heap_no_eql (F : FloatModel) :
    ∀ (ts : List Token) (st : List Number) (vs : List (Option String))
      (h : Heap), Token.Operator .Eql ∉ ts → (resolveLoop F ts st vs h).1 = h := by
  intro ts
  induction ts with
  | nil => intro st vs h _; rfl
  | cons t ts ih =>
    intro st vs h hno
    have hnt : Token.Operator .Eql ∉ ts := fun hm => hno (List.mem_cons_of_mem _ hm)
    have hne : t ≠ .Operator .Eql := fun he => hno (he ▸ List.mem_cons_self _ _)
    cases t with
    | Operand n => simpa [resolveLoop] using ih _ _ _ hnt
    | Variable v => simpa [resolveLoop] using ih _ _ _ hnt
    | SemiColon => simpa [resolveLoop] using ih _ _ _ hnt
    | Bracket b => simp [resolveLoop]
    | Comma => simp [resolveLoop]
    | Operator op =>
      have hop : op ≠ .Eql := by rintro rfl; exact hne rfl
      cases st with
      | nil => simp [resolveLoop]
      | cons right st1 =>
        by_cases hu : op = .Une ∨ op = .Fac
        · simp only [resolveLoop, if_pos hu]
          rcases hs : operStep F op right (.NaturalNumber 0) none st1 vs.tail h
            with ⟨st2, vs2, h2⟩ | res
          all_goals
            have hh := stepHeap_operStep F op right (.NaturalNumber 0) none
              st1 vs.tail h hop
            rw [hs] at hh
            simp only [stepHeap] at hh
          · show (resolveLoop F ts st2 vs2 h2).1 = h
            rw [hh]
            exact ih _ _ _ hnt
          · exact hh
        · simp only [resolveLoop, if_neg hu]
          cases st1 with
          | nil => simp
          | cons left st2 =>
            show (match operStep F op right left (vs.tail.head?.getD none)
                  st2 vs.tail.tail h with
                | Sum.inl (st2, vs2, h2) => resolveLoop F ts st2 vs2 h2
                | Sum.inr out => out).1 = h
            rcases hs : operStep F op right left (vs.tail.head?.getD none)
              st2 vs.tail.tail h with ⟨st3, vs3, h3⟩ | res
            all_goals
              have hh := stepHeap_operStep F op right left
                (vs.tail.head?.getD none) st2 vs.tail.tail h hop
              rw [hs] at hh
              simp only [stepHeap] at hh
            · show (resolveLoop F ts st3 vs3 h3).1 = h
              rw [hh]
              exact ih _ _ _ hnt
            · exact hh
    | Function f =>
      cases st with
      | nil => simp [resolveLoop]
      | cons value st1 =>
        cases st1 with
        | nil =>
          cases f <;> simp only [resolveLoop] <;>
            first
              | rfl
              | exact ih _ _ _ hnt
        | cons value2 st2 =>
          cases f <;> simp only [resolveLoop] <;>
            first
              | rfl
              | exact ih _ _ _ hnt

/-- Claim C9, counterexample: compiling `"(x=10)+(1/0)"` registers `x = 0`
(the Environment before the `resolve` call); the failed evaluation (with
`DivisionByZero`) nevertheless leaves `x = 10` in the Environment, because
the assignment inside the parenthesis executed before the failure — the
Environment after the failed call differs from the one before it. -/
theorem C9_assignment_survives_failure_counterexample :
    RpnResolver.parse_with_borrowed_heap F0 "(x=10)+(1/0)" [] =
      ([.Variable "x", .Operand (.NaturalNumber 10), .Operator .Eql,
        .Operand (.NaturalNumber 1), .Operand (.NaturalNumber 0),
        .Operator .Div, .Operator .Add], [("x", .NaturalNumber 0)]) ∧
    RpnResolver.resolve F0
        [.Variable "x", .Operand (.NaturalNumber 10), .Operator .Eql,
         .Operand (.NaturalNumber 1), .Operand (.NaturalNumber 0),
         .Operator .Div, .Operator .Add] [("x", .NaturalNumber 0)] =
      ([("x", .NaturalNumber 10)], .err .DivisionByZero) ∧
    ([("x", Number.NaturalNumber 10)] : Heap) ≠ [("x", .NaturalNumber 0)] :=
  ⟨rfl, rfl, by decide⟩

/-- Claim C9 (corrected): a failed evaluation may keep assignments that
executed before the failure point (see the counterexample); what holds is
that `resolve` mutates the Environment ONLY at assignment operators — for
every postfix sequence containing no `=`, the Environment after `resolve`
(failed or not) is identical to the Environment before the call. -/
theorem C9_env_unchanged_without_assignment (F : FloatModel)
    (ts : List Token) (h : Heap) (hno : Token.Operator .Eql ∉ ts) :
    (RpnResolver.resolve F ts h).1 = h := by
  have hloop := resolveLoop_heap_no_eql F ts [] [] h hno
  unfold RpnResolver.resolve
  rcases hl : resolveLoop F ts [] [] h with ⟨h', res⟩
  rw [hl] at hloop
  cases res with
  | ok st vs =>
    have hmatch : (match st.getLast? with
        | some v => (h', RRes.val v)
        | none => (h', RRes.err .MalformedExpression)).1 = h' := by
      cases st.getLast? <;> rfl
    exact hmatch.trans hloop
  | err e => exact hloop
  | panic => exact hloop

/-- Witness for C9's corrected statement at a concrete input. -/
theorem C9_env_unchanged_without_assignment_witness :
    (RpnResolver.resolve F0
        [.Operand (.NaturalNumber 1), .Operand (.NaturalNumber 0),
         .Operator .Div] [("x", Number.NaturalNumber 3)]).1 =
      [("x", Number.NaturalNumber 3)] :=
  C9_env_unchanged_without_assignment F0 _ _ (by decide)

/-- Claim C10 (confirmed): a factorial applied to a non-negative Integer
that does not fit in an unsigned 64-bit word (`v ≥ 2^64`, where `to_u64`
fails) yields the recoverable "Factorial operand is too large" error; the
computation is only attempted for operands below `2^64`, where it returns
the exact factorial. -/
theorem C10_factorial_u64_guard (F : FloatModel) (h : Heap) (v w : ℤ)
    (hv : 18446744073709551616 ≤ v) (hw0 : 0 ≤ w)
    (hw : w < 18446744073709551616) :
    RpnResolver.resolve F [.Operand (.NaturalNumber v), .Operator .Fac] h =
      (h, .err .FactorialTooLarge) ∧
    RpnResolver.resolve F [.Operand (.NaturalNumber w), .Operator .Fac] h =
      (h, .val (.NaturalNumber (RpnResolver.factorial_helper w.toNat))) := by
  have hv0 : ¬(v < 0) := by omega
  have hv1 : ¬(v < 18446744073709551616) := by omega
  have hw0' : ¬(w < 0) := by omega
  constructor
  · simp [RpnResolver.resolve, resolveLoop, operStep, hv0, hv1]
  · simp [RpnResolver.resolve, resolveLoop, operStep, hw0', hw]

/-- Witness for C10 at concrete inputs (`2^64` and `4`). -/
theorem C10_factorial_u64_guard_witness :
    RpnResolver.resolve F0
        [.Operand (.NaturalNumber 18446744073709551616), .Operator .Fac] [] =
      ([], .err .FactorialTooLarge) ∧
    RpnResolver.resolve F0 [.Operand (.NaturalNumber 4), .Operator .Fac] [] =
      ([], .val (.NaturalNumber (RpnResolver.factorial_helper (4 : ℤ).toNat))) :=
  C10_factorial_u64_guard F0 [] 18446744073709551616 4
    (by decide) (by decide) (by decide)

end Yarer
